import Mathlib

/-!
Verification of the real-time group chat subsystem (`GroupChat.tsx`).

The component is embedded as an event-loop operational model: a `World`
carries the React component state (`messages`, `connectionStatus`, the
`wsRef` and `reconnectTimeoutRef` refs, the `newMessage` input), the
lifecycle phase of every `WebSocket` object ever constructed, the status
of every timer ever scheduled with `setTimeout`, the outbound frames, and
bookkeeping for the one-shot history fetch and the effect cleanup.
Handlers (`connectWebSocket`, `ws.onopen`, `ws.onmessage`, `ws.onerror`,
`ws.onclose`, `handleSendMessage`, the `useEffect` cleanup) are translated
one-to-one from the source; the browser/event-loop nondeterminism (when a
socket opens, delivers, errors or closes, when a timer fires, when the
fetch resolves) is the `step` relation over `Event`s.
-/

namespace GroupChat

/-- The nested `user` object of the `Message` interface in `GroupChat.tsx`. -/
structure MsgUser where
  name : String
  profile_picture : Option String
deriving DecidableEq, Repr

/-- The `Message` interface of `GroupChat.tsx`. -/
structure Message where
  id : Nat
  content : String
  user_id : Nat
  created_at : String
  user : MsgUser
deriving DecidableEq, Repr

/-- The `ConnectionStatus` union type of `GroupChat.tsx`. -/
inductive ConnectionStatus
  | connecting
  | connected
  | disconnected
  | error
deriving DecidableEq, Repr

/-- Lifecycle phase of one `WebSocket` object.  `conn` is a constructed
socket whose open event has not yet been delivered; `opened` has had its
open event delivered; `closing` has had `close()` called but its close
event has not yet been delivered (the close event of a web socket is
delivered asynchronously, after the call that requested it returns);
`closed` has had its close event delivered.  A socket's handlers keep
firing according to its own phase even when the component's `wsRef` no
longer points at it. -/
inductive SockPhase
  | conn
  | opened
  | closing
  | closed
deriving DecidableEq, Repr

/-- One timer created by `setTimeout`: `pending` until it fires or is
cancelled by `clearTimeout`; `delayMs` is the delay it was scheduled with. -/
structure Timer where
  pending : Bool
  delayMs : Nat
deriving DecidableEq, Repr

/-- One outbound frame: the component sends `JSON.stringify({content: newMessage})`,
so a frame carries exactly a `content` string. -/
structure OutFrame where
  content : String
deriving DecidableEq, Repr

/-- The React component state and refs of `GroupChat`. -/
structure SessionState where
  messages : List Message
  connectionStatus : ConnectionStatus
  wsRef : Option Nat
  reconnectTimeoutRef : Option Nat
  newMessage : String
deriving DecidableEq, Repr

/-- The whole modelled world: component state plus the environment the
handlers interact with.  Sockets and timers are identified by their index
in `socks` / `timers`; a fresh socket id is `socks.length`, a fresh timer
id is `timers.length`.  `attemptsAfterTeardown` counts `WebSocket`
constructions that happen after the effect cleanup has run. -/
structure World where
  sess : SessionState
  token : Option String
  socks : List SockPhase
  timers : List Timer
  frames : List OutFrame
  fetchInFlight : Bool
  fetchCount : Nat
  mounted : Bool
  tornDown : Bool
  attemptsAfterTeardown : Nat
deriving DecidableEq, Repr

/-- The functional state update inside `ws.onmessage`: if some message in
`prev` has the same `id` as the incoming message, return `prev` unchanged;
otherwise append the incoming message at the end. -/
def mergeMessage (prev : List Message) (newMsg : Message) : List Message :=
  if prev.any (fun m => m.id == newMsg.id) then prev else prev ++ [newMsg]

/-- `ws.close()`: request closure of socket `i`.  The socket stays in the
world with phase `closing` (its close event is still to be delivered);
closing an already-closed socket is a no-op. -/
def requestClose (socks : List SockPhase) (i : Nat) : List SockPhase :=
  match socks[i]? with
  | some p => if p = SockPhase.closed then socks else socks.set i SockPhase.closing
  | none => socks

/-- `clearTimeout(t)`: a pending timer is cancelled; clearing a timer that
already fired or was already cancelled is a no-op. -/
def clearTimeout (timers : List Timer) (t : Nat) : List Timer :=
  match timers[t]? with
  | some tm => timers.set t { tm with pending := false }
  | none => timers

/-- The `connectWebSocket` callback of `GroupChat.tsx`.  With a missing or
empty token (`!token` in JS is true for both) it logs, sets the status to
`error` and returns without constructing a socket.  Otherwise it closes
any existing connection (`wsRef.current`), sets the status to
`connecting`, constructs a new `WebSocket` and stores it in `wsRef`. -/
def connectWebSocket (w : World) : World :=
  match w.token with
  | none => { w with sess := { w.sess with connectionStatus := ConnectionStatus.error } }
  | some tok =>
    if tok = "" then
      { w with sess := { w.sess with connectionStatus := ConnectionStatus.error } }
    else
      let socks :=
        match w.sess.wsRef with
        | some i => requestClose w.socks i
        | none => w.socks
      { w with
        socks := socks ++ [SockPhase.conn]
        sess := { w.sess with
          connectionStatus := ConnectionStatus.connecting
          wsRef := some socks.length }
        attemptsAfterTeardown :=
          w.attemptsAfterTeardown + (if w.tornDown then 1 else 0) }

/-- The `ws.onopen` handler: status becomes `connected`; if a reconnect
timer handle is stored, it is cleared and the ref nulled. -/
def onopen (w : World) : World :=
  let timers :=
    match w.sess.reconnectTimeoutRef with
    | some t => clearTimeout w.timers t
    | none => w.timers
  { w with
    timers := timers
    sess := { w.sess with
      connectionStatus := ConnectionStatus.connected
      reconnectTimeoutRef := none } }

/-- The `ws.onmessage` handler: parse the frame as a `Message` and merge it
into `messages` with duplicate suppression by `id`. -/
def onmessage (w : World) (m : Message) : World :=
  { w with sess := { w.sess with messages := mergeMessage w.sess.messages m } }

/-- The `ws.onerror` handler: logs and sets the status to `error`. -/
def onerror (w : World) : World :=
  { w with sess := { w.sess with connectionStatus := ConnectionStatus.error } }

/-- The `ws.onclose` handler: status becomes `disconnected`, `wsRef` is
nulled, and a reconnect timer with a 3000 ms delay is scheduled with
`setTimeout`, its handle overwriting `reconnectTimeoutRef` (the source
does not call `clearTimeout` on the previous handle here).  The timer's
callback is `connectWebSocket`. -/
def onclose (w : World) : World :=
  { w with
    timers := w.timers ++ [{ pending := true, delayMs := 3000 }]
    sess := { w.sess with
      connectionStatus := ConnectionStatus.disconnected
      wsRef := none
      reconnectTimeoutRef := some w.timers.length } }

/-- Model of the JavaScript `String.prototype.trim` used by
`handleSendMessage`: strip whitespace from both ends of the string. -/
def jsTrim (s : String) : String :=
  ⟨((s.data.dropWhile Char.isWhitespace).reverse.dropWhile Char.isWhitespace).reverse⟩

/-- The `handleSendMessage` handler: if the input is empty after trimming,
or no socket handle is stored, or the status is not exactly `connected`,
return with no effect.  Otherwise send one frame carrying the untrimmed
input text and clear the input. -/
def handleSendMessage (w : World) : World :=
  if jsTrim w.sess.newMessage = "" ∨ w.sess.wsRef = none ∨
      w.sess.connectionStatus ≠ ConnectionStatus.connected then
    w
  else
    { w with
      frames := w.frames ++ [{ content := w.sess.newMessage }]
      sess := { w.sess with newMessage := "" } }

/-- The `useEffect` cleanup: close the current socket if any, and clear the
currently stored reconnect timer handle if any.  It does not detach the
socket's handlers and does not null the refs. -/
def cleanup (w : World) : World :=
  let socks :=
    match w.sess.wsRef with
    | some i => requestClose w.socks i
    | none => w.socks
  let timers :=
    match w.sess.reconnectTimeoutRef with
    | some t => clearTimeout w.timers t
    | none => w.timers
  { w with socks := socks, timers := timers, tornDown := true }

/-- The nondeterministic environment events that drive the session. -/
inductive Event
  | mount
  | fetchOk (data : List Message)
  | fetchErr
  | wsOpen (i : Nat)
  | wsMessage (i : Nat) (m : Message)
  | wsError (i : Nat)
  | wsClose (i : Nat)
  | timerFire (t : Nat)
  | inputChange (text : String)
  | sendClick
  | teardown
deriving DecidableEq, Repr

/-- One step of the event loop.  `none` means the event is not enabled in
this world.  `mount` runs the `useEffect` body (`fetchInitialMessages()`
then `connectWebSocket()`); `fetchOk`/`fetchErr` resolve the in-flight
history fetch (an ok response replaces `messages` wholesale, a network
error or non-ok response changes nothing); socket events run the handler
installed on that socket, gated by the socket's own phase; `timerFire`
runs a pending timer's callback (`connectWebSocket`); `teardown` runs the
effect cleanup. -/
def step (w : World) : Event → Option World
  | Event.mount =>
    if w.mounted then none
    else
      some (connectWebSocket
        { w with mounted := true, fetchInFlight := true, fetchCount := w.fetchCount + 1 })
  | Event.fetchOk data =>
    if w.fetchInFlight then
      some { w with fetchInFlight := false, sess := { w.sess with messages := data } }
    else none
  | Event.fetchErr =>
    if w.fetchInFlight then some { w with fetchInFlight := false } else none
  | Event.wsOpen i =>
    if w.socks[i]? = some SockPhase.conn then
      some (onopen { w with socks := w.socks.set i SockPhase.opened })
    else none
  | Event.wsMessage i m =>
    if w.socks[i]? = some SockPhase.opened then some (onmessage w m) else none
  | Event.wsError i =>
    if w.socks[i]? = some SockPhase.conn ∨ w.socks[i]? = some SockPhase.opened then
      some (onerror w)
    else none
  | Event.wsClose i =>
    match w.socks[i]? with
    | some p =>
      if p = SockPhase.closed then none
      else some (onclose { w with socks := w.socks.set i SockPhase.closed })
    | none => none
  | Event.timerFire t =>
    match w.timers[t]? with
    | some tm =>
      if tm.pending then
        some (connectWebSocket { w with timers := w.timers.set t { tm with pending := false } })
      else none
    | none => none
  | Event.inputChange s => some { w with sess := { w.sess with newMessage := s } }
  | Event.sendClick => some (handleSendMessage w)
  | Event.teardown =>
    if w.mounted ∧ ¬ w.tornDown then some (cleanup w) else none

/-- The world at component construction: `useState` initial values
(`messages = []`, status `connecting`, empty input), null refs, no sockets,
no timers, effect not yet run. -/
def initWorld (token : Option String) : World :=
  { sess :=
      { messages := []
        connectionStatus := ConnectionStatus.connecting
        wsRef := none
        reconnectTimeoutRef := none
        newMessage := "" }
    token := token
    socks := []
    timers := []
    frames := []
    fetchInFlight := false
    fetchCount := 0
    mounted := false
    tornDown := false
    attemptsAfterTeardown := 0 }

/-- Worlds reachable from `initWorld tok` by steps whose events all satisfy
`P` (instantiate `P` with a trivial predicate for plain reachability). -/
inductive ReachableW (tok : Option String) (P : Event → Prop) : World → Prop
  | init : ReachableW tok P (initWorld tok)
  | next {w e w'} : ReachableW tok P w → P e → step w e = some w' → ReachableW tok P w'

/-- Plain reachability: any interleaving of environment events. -/
def Reachable (tok : Option String) (w : World) : Prop :=
  ReachableW tok (fun _ => True) w

/-- Run a concrete list of events, failing if any event is not enabled. -/
def runsTo (w : World) : List Event → Option World
  | [] => some w
  | e :: es =>
    match step w e with
    | some w' => runsTo w' es
    | none => none

/-- Number of pending (scheduled, not yet fired or cancelled) timers. -/
def pendingCount (timers : List Timer) : Nat :=
  (timers.filter (fun t => t.pending)).length

/-- Number of sockets whose close event has not yet been delivered. -/
def aliveCount (socks : List SockPhase) : Nat :=
  (socks.filter (fun p => decide (p ≠ SockPhase.closed))).length

end GroupChat

namespace GroupChat

/-! ### Counting lemmas for `List.set`, append, and the timer/socket helpers -/

lemma length_filter_set {α : Type} (f : α → Bool) (l : List α) (i : Nat) (a b : α)
    (h : l[i]? = some a) :
    ((l.set i b).filter f).length + (if f a then 1 else 0)
      = (l.filter f).length + (if f b then 1 else 0) := by
  induction l generalizing i with
  | nil => simp at h
  | cons x xs ih =>
    cases i with
    | zero =>
      simp only [List.getElem?_cons_zero, Option.some.injEq] at h
      rw [← h]
      cases hfx : f x <;> cases hfb : f b <;>
        simp [List.set, List.filter_cons, hfx, hfb, Nat.add_comm]
    | succ n =>
      simp only [List.getElem?_cons_succ] at h
      have hrec := ih n h
      cases hfx : f x <;>
        simp only [List.set, List.filter_cons, hfx, List.length_cons, if_true, if_false,
          Bool.false_eq_true, ite_false, ite_true] <;> omega

lemma one_le_length_filter {α : Type} {f : α → Bool} {l : List α} {i : Nat} {a : α}
    (h : l[i]? = some a) (ha : f a = true) : 1 ≤ (l.filter f).length := by
  have hm : a ∈ l := List.getElem?_mem h
  exact List.length_pos_of_mem (List.mem_filter.mpr ⟨hm, ha⟩)

lemma aliveCount_append (l : List SockPhase) (p : SockPhase) :
    aliveCount (l ++ [p]) = aliveCount l + (if p = SockPhase.closed then 0 else 1) := by
  cases p <;> simp [aliveCount, List.filter_append]

lemma pendingCount_append (l : List Timer) (tm : Timer) :
    pendingCount (l ++ [tm]) = pendingCount l + (if tm.pending then 1 else 0) := by
  cases htm : tm.pending <;> simp [pendingCount, List.filter_append, htm]

lemma pendingCount_clearTimeout_le (timers : List Timer) (t : Nat) :
    pendingCount (clearTimeout timers t) ≤ pendingCount timers := by
  unfold clearTimeout
  cases h : timers[t]? with
  | none => simp [h]
  | some tm =>
    simp only [h]
    have hk := length_filter_set (fun x => x.pending) timers t tm { tm with pending := false } h
    unfold pendingCount
    cases htm : tm.pending <;> simp [htm] at hk ⊢ <;> omega

lemma aliveCount_requestClose (socks : List SockPhase) (i : Nat) :
    aliveCount (requestClose socks i) = aliveCount socks := by
  unfold requestClose
  cases h : socks[i]? with
  | none => simp [h]
  | some p =>
    simp only [h]
    by_cases hp : p = SockPhase.closed
    · simp [hp]
    · have hk := length_filter_set (fun q => decide (q ≠ SockPhase.closed)) socks i p
        SockPhase.closing h
      simp [hp] at hk
      simp [hp, aliveCount]
      omega

lemma delays_clearTimeout {timers : List Timer} (t : Nat)
    (h : ∀ x ∈ timers, x.delayMs = 3000) :
    ∀ x ∈ clearTimeout timers t, x.delayMs = 3000 := by
  intro x hx
  unfold clearTimeout at hx
  cases hg : timers[t]? with
  | none => rw [hg] at hx; exact h x hx
  | some tm =>
    rw [hg] at hx
    rcases List.mem_or_eq_of_mem_set hx with h1 | h1
    · exact h x h1
    · subst h1
      exact h tm (List.getElem?_mem hg)

lemma delays_set_fired {timers : List Timer} {t : Nat} {tm : Timer}
    (hg : timers[t]? = some tm)
    (h : ∀ x ∈ timers, x.delayMs = 3000) :
    ∀ x ∈ timers.set t { tm with pending := false }, x.delayMs = 3000 := by
  intro x hx
  rcases List.mem_or_eq_of_mem_set hx with h1 | h1
  · exact h x h1
  · subst h1
    exact h tm (List.getElem?_mem hg)

end GroupChat

namespace GroupChat

/-- The session invariant maintained by every event handler: the number of
sockets whose close event is still to come plus the number of pending
reconnect timers never exceeds one; whenever a reconnect timer is pending
the `wsRef` handle is null (so a firing timer never closes a socket and a
closing socket always produces exactly one fresh timer); every scheduled
timer was scheduled with the fixed 3000 ms delay; the history fetch is
issued exactly once, by the effect body. -/
def Inv (w : World) : Prop :=
  aliveCount w.socks + pendingCount w.timers ≤ 1 ∧
  (1 ≤ pendingCount w.timers → w.sess.wsRef = none) ∧
  (∀ t ∈ w.timers, t.delayMs = 3000) ∧
  w.fetchCount = (if w.mounted then 1 else 0) ∧
  (w.mounted = false →
    w.socks = [] ∧ w.timers = [] ∧ w.sess.wsRef = none ∧ w.fetchInFlight = false)

lemma inv_initWorld (tok : Option String) : Inv (initWorld tok) := by
  simp [Inv, initWorld, aliveCount, pendingCount]

lemma connectWebSocket_token_none {w : World} (h : w.token = none) :
    connectWebSocket w
      = { w with sess := { w.sess with connectionStatus := ConnectionStatus.error } } := by
  unfold connectWebSocket
  rw [h]

lemma connectWebSocket_token_empty {w : World} (h : w.token = some "") :
    connectWebSocket w
      = { w with sess := { w.sess with connectionStatus := ConnectionStatus.error } } := by
  unfold connectWebSocket
  rw [h]
  simp

lemma connectWebSocket_good {w : World} {tok : String} (h : w.token = some tok)
    (hne : tok ≠ "") (href : w.sess.wsRef = none) :
    connectWebSocket w
      = { w with
          socks := w.socks ++ [SockPhase.conn]
          sess := { w.sess with
            connectionStatus := ConnectionStatus.connecting
            wsRef := some w.socks.length }
          attemptsAfterTeardown :=
            w.attemptsAfterTeardown + (if w.tornDown then 1 else 0) } := by
  unfold connectWebSocket
  rw [h, href]
  simp [hne]

lemma inv_connectWebSocket {w : World}
    (halive : aliveCount w.socks = 0)
    (hpend : pendingCount w.timers = 0)
    (hdelay : ∀ t ∈ w.timers, t.delayMs = 3000)
    (hfc : w.fetchCount = (if w.mounted then 1 else 0))
    (hm : w.mounted = true)
    (href : w.sess.wsRef = none) :
    Inv (connectWebSocket w) := by
  cases htok : w.token with
  | none =>
    rw [connectWebSocket_token_none htok]
    exact ⟨show aliveCount w.socks + pendingCount w.timers ≤ 1 by omega,
      fun hp => href, hdelay, hfc, fun hmf => by rw [hm] at hmf; cases hmf⟩
  | some tok =>
    by_cases he : tok = ""
    · rw [he] at htok
      rw [connectWebSocket_token_empty htok]
      exact ⟨show aliveCount w.socks + pendingCount w.timers ≤ 1 by omega,
        fun hp => href, hdelay, hfc, fun hmf => by rw [hm] at hmf; cases hmf⟩
    · rw [connectWebSocket_good htok he href]
      refine ⟨?_, ?_, hdelay, hfc, fun hmf => by rw [hm] at hmf; cases hmf⟩
      · show aliveCount (w.socks ++ [SockPhase.conn]) + pendingCount w.timers ≤ 1
        rw [aliveCount_append]
        simp
        omega
      · intro hp
        exact absurd (show (1 : Nat) ≤ 0 by
          calc (1 : Nat) ≤ pendingCount w.timers := hp
            _ = 0 := hpend) (by omega)

lemma pendingCount_onopen_le (w : World) :
    pendingCount (onopen w).timers ≤ pendingCount w.timers := by
  unfold onopen
  cases h : w.sess.reconnectTimeoutRef with
  | none => simp
  | some t => exact pendingCount_clearTimeout_le w.timers t

lemma delays_onopen {w : World} (h : ∀ x ∈ w.timers, x.delayMs = 3000) :
    ∀ x ∈ (onopen w).timers, x.delayMs = 3000 := by
  unfold onopen
  cases hr : w.sess.reconnectTimeoutRef with
  | none => simpa using h
  | some t => exact delays_clearTimeout t h

lemma inv_onopen {w : World} (hw : Inv w) : Inv (onopen w) := by
  unfold Inv at hw
  obtain ⟨h1, h2, h3, h4, h5⟩ := hw
  have hpo := pendingCount_onopen_le w
  refine ⟨?_, ?_, delays_onopen h3, h4, ?_⟩
  · show aliveCount w.socks + pendingCount (onopen w).timers ≤ 1
    omega
  · intro hp
    exact h2 (Nat.le_trans hp hpo)
  · intro hmf
    obtain ⟨ha, hb, hc, hd⟩ := h5 hmf
    refine ⟨ha, ?_, hc, hd⟩
    show (onopen w).timers = []
    unfold onopen
    cases hr : w.sess.reconnectTimeoutRef <;> simp [hb, clearTimeout]

lemma inv_onclose {w : World}
    (halive : aliveCount w.socks = 0)
    (hpend : pendingCount w.timers = 0)
    (h3 : ∀ t ∈ w.timers, t.delayMs = 3000)
    (h4 : w.fetchCount = (if w.mounted then 1 else 0))
    (hm : w.mounted = true) :
    Inv (onclose w) := by
  refine ⟨?_, fun _ => rfl, ?_, h4, fun hmf => by
    have hq : w.mounted = false := hmf
    rw [hm] at hq
    cases hq⟩
  · show aliveCount w.socks
        + pendingCount (w.timers ++ [{ pending := true, delayMs := 3000 }]) ≤ 1
    rw [pendingCount_append]
    simp
    omega
  · intro x hx
    rcases List.mem_append.mp hx with h | h
    · exact h3 x h
    · simp at h
      rw [h]

lemma inv_handleSendMessage {w : World} (hw : Inv w) : Inv (handleSendMessage w) := by
  unfold Inv at hw
  obtain ⟨h1, h2, h3, h4, h5⟩ := hw
  unfold handleSendMessage
  split
  · exact ⟨h1, h2, h3, h4, h5⟩
  · refine ⟨h1, h2, h3, h4, ?_⟩
    intro hmf
    obtain ⟨ha, hb, hc, hd⟩ := h5 hmf
    exact ⟨ha, hb, hc, hd⟩

lemma inv_cleanup {w : World} (hw : Inv w) : Inv (cleanup w) := by
  unfold Inv at hw
  obtain ⟨h1, h2, h3, h4, h5⟩ := hw
  unfold cleanup
  cases hr : w.sess.wsRef with
  | none =>
    cases hrt : w.sess.reconnectTimeoutRef with
    | none =>
      refine ⟨h1, ?_, h3, h4, ?_⟩
      · intro hp; exact hr
      · intro hmf
        obtain ⟨ha, hb, hc, hd⟩ := h5 hmf
        exact ⟨ha, hb, hc, hd⟩
    | some t =>
      have hle := pendingCount_clearTimeout_le w.timers t
      refine ⟨?_, ?_, delays_clearTimeout t h3, h4, ?_⟩
      · show aliveCount w.socks + pendingCount (clearTimeout w.timers t) ≤ 1
        omega
      · intro hp; exact hr
      · intro hmf
        obtain ⟨ha, hb, hc, hd⟩ := h5 hmf
        refine ⟨ha, ?_, hc, hd⟩
        show clearTimeout w.timers t = []
        simp [hb, clearTimeout]
  | some i =>
    have hac := aliveCount_requestClose w.socks i
    cases hrt : w.sess.reconnectTimeoutRef with
    | none =>
      refine ⟨?_, ?_, h3, h4, ?_⟩
      · show aliveCount (requestClose w.socks i) + pendingCount w.timers ≤ 1
        omega
      · intro hp; exact h2 hp
      · intro hmf
        obtain ⟨ha, hb, hc, hd⟩ := h5 hmf
        refine ⟨?_, hb, hc, hd⟩
        show requestClose w.socks i = []
        simp [ha, requestClose]
    | some t =>
      have hle := pendingCount_clearTimeout_le w.timers t
      refine ⟨?_, ?_, delays_clearTimeout t h3, h4, ?_⟩
      · show aliveCount (requestClose w.socks i) + pendingCount (clearTimeout w.timers t) ≤ 1
        omega
      · intro hp
        exact h2 (Nat.le_trans hp hle)
      · intro hmf
        obtain ⟨ha, hb, hc, hd⟩ := h5 hmf
        refine ⟨?_, ?_, hc, hd⟩
        · show requestClose w.socks i = []
          simp [ha, requestClose]
        · show clearTimeout w.timers t = []
          simp [hb, clearTimeout]

lemma aliveCount_set_of_get {socks : List SockPhase} {i : Nat} {p : SockPhase}
    (hg : socks[i]? = some p) (q : SockPhase) :
    aliveCount (socks.set i q) + (if p = SockPhase.closed then 0 else 1)
      = aliveCount socks + (if q = SockPhase.closed then 0 else 1) := by
  have hk := length_filter_set (fun r => decide (r ≠ SockPhase.closed)) socks i p q hg
  unfold aliveCount
  cases p <;> cases q <;> simp at hk ⊢ <;> omega

lemma pendingCount_set_of_get {timers : List Timer} {t : Nat} {tm : Timer}
    (hg : timers[t]? = some tm) :
    pendingCount (timers.set t { tm with pending := false })
        + (if tm.pending then 1 else 0)
      = pendingCount timers := by
  have hk := length_filter_set (fun x => x.pending) timers t tm { tm with pending := false } hg
  unfold pendingCount
  cases h : tm.pending <;> simp [h] at hk ⊢ <;> omega

lemma inv_step {w w' : World} {e : Event} (hw : Inv w) (hs : step w e = some w') :
    Inv w' := by
  have hw0 := hw
  unfold Inv at hw
  obtain ⟨h1, h2, h3, h4, h5⟩ := hw
  cases e with
  | mount =>
    simp only [step] at hs
    split at hs
    · cases hs
    · rename_i hmt
      have hm : w.mounted = false := by
        cases hq : w.mounted
        · rfl
        · exact absurd hq hmt
      obtain ⟨hsocks, htimers, href, hinf⟩ := h5 hm
      injection hs with hs
      subst hs
      exact inv_connectWebSocket
        (by simp [aliveCount, hsocks])
        (by simp [pendingCount, htimers])
        (by intro t ht; rw [htimers] at ht; cases ht)
        (by simp [h4, hm])
        rfl
        href
  | fetchOk data =>
    simp only [step] at hs
    split at hs
    · injection hs with hs
      subst hs
      exact ⟨h1, h2, h3, h4, fun hmf => by
        obtain ⟨ha, hb, hc, _⟩ := h5 hmf
        exact ⟨ha, hb, hc, rfl⟩⟩
    · cases hs
  | fetchErr =>
    simp only [step] at hs
    split at hs
    · injection hs with hs
      subst hs
      exact ⟨h1, h2, h3, h4, fun hmf => by
        obtain ⟨ha, hb, hc, _⟩ := h5 hmf
        exact ⟨ha, hb, hc, rfl⟩⟩
    · cases hs
  | wsOpen i =>
    simp only [step] at hs
    split at hs
    · rename_i hg
      injection hs with hs
      subst hs
      have hset := aliveCount_set_of_get hg SockPhase.opened
      simp at hset
      refine inv_onopen ⟨?_, h2, h3, h4, ?_⟩
      · show aliveCount (w.socks.set i SockPhase.opened) + pendingCount w.timers ≤ 1
        omega
      · intro hmf
        obtain ⟨ha, _, _, _⟩ := h5 hmf
        rw [ha] at hg
        simp at hg
    · cases hs
  | wsMessage i m =>
    simp only [step] at hs
    split at hs
    · injection hs with hs
      subst hs
      exact ⟨h1, h2, h3, h4, fun hmf => h5 hmf⟩
    · cases hs
  | wsError i =>
    simp only [step] at hs
    split at hs
    · injection hs with hs
      subst hs
      exact ⟨h1, h2, h3, h4, fun hmf => h5 hmf⟩
    · cases hs
  | wsClose i =>
    simp only [step] at hs
    split at hs
    · rename_i p hg
      split at hs
      · cases hs
      · rename_i hp
        injection hs with hs
        subst hs
        have hset := aliveCount_set_of_get hg SockPhase.closed
        simp [hp] at hset
        have hm : w.mounted = true := by
          cases hmt : w.mounted
          · obtain ⟨ha, _, _, _⟩ := h5 hmt
            rw [ha] at hg
            simp at hg
          · rfl
        exact inv_onclose
          (show aliveCount (w.socks.set i SockPhase.closed) = 0 by omega)
          (show pendingCount w.timers = 0 by omega)
          h3 h4 hm
    · cases hs
  | timerFire t =>
    simp only [step] at hs
    split at hs
    · rename_i tm hg
      split at hs
      · rename_i hp
        injection hs with hs
        subst hs
        have hpend1 : 1 ≤ pendingCount w.timers := one_le_length_filter hg hp
        have href := h2 hpend1
        have hset := pendingCount_set_of_get hg
        rw [hp] at hset
        simp at hset
        have hm : w.mounted = true := by
          cases hmt : w.mounted
          · obtain ⟨_, hb, _, _⟩ := h5 hmt
            rw [hb] at hg
            cases hg
          · rfl
        exact inv_connectWebSocket
          (show aliveCount w.socks = 0 by omega)
          (show pendingCount (w.timers.set t { pending := false, delayMs := tm.delayMs }) = 0
            by omega)
          (delays_set_fired hg h3)
          h4
          hm
          href
      · cases hs
    · cases hs
  | inputChange s =>
    simp only [step] at hs
    injection hs with hs
    subst hs
    exact ⟨h1, h2, h3, h4, fun hmf => h5 hmf⟩
  | sendClick =>
    simp only [step] at hs
    injection hs with hs
    subst hs
    exact inv_handleSendMessage hw0
  | teardown =>
    simp only [step] at hs
    split at hs
    · injection hs with hs
      subst hs
      exact inv_cleanup hw0
    · cases hs

lemma inv_reachable {tok : Option String} {P : Event → Prop} {w : World}
    (h : ReachableW tok P w) : Inv w := by
  induction h with
  | init => exact inv_initWorld tok
  | next _ _ hs ih => exact inv_step ih hs

lemma reachableW_of_runsTo {tok : Option String} {P : Event → Prop} {w w' : World}
    {es : List Event} (h : ReachableW tok P w) (hP : ∀ e ∈ es, P e)
    (hr : runsTo w es = some w') : ReachableW tok P w' := by
  induction es generalizing w with
  | nil =>
    unfold runsTo at hr
    injection hr with hr
    subst hr
    exact h
  | cons e es ih =>
    unfold runsTo at hr
    cases hstep : step w e with
    | none => rw [hstep] at hr; cases hr
    | some w1 =>
      rw [hstep] at hr
      exact ih (ReachableW.next h (hP e (by simp)) hstep)
        (fun x hx => hP x (by simp [hx]))
        hr

/-- Event predicate for the dedup invariant: history responses carry
server-assigned identifiers that are pairwise distinct within one batch
(the spec's `Message` invariant: identifier unique, server-assigned). -/
def GoodFetch (e : Event) : Prop :=
  ∀ data, e = Event.fetchOk data → (data.map Message.id).Nodup

lemma nodup_mergeMessage {prev : List Message} (m : Message)
    (h : (prev.map Message.id).Nodup) :
    ((mergeMessage prev m).map Message.id).Nodup := by
  unfold mergeMessage
  split
  · exact h
  · rename_i hany
    rw [List.map_append]
    simp only [List.map_cons, List.map_nil]
    rw [List.nodup_append]
    refine ⟨h, List.nodup_singleton _, ?_⟩
    intro a ha hb
    simp at hb
    subst hb
    rw [List.mem_map] at ha
    obtain ⟨x, hx, hxid⟩ := ha
    exact hany (List.any_eq_true.mpr ⟨x, hx, by simp [hxid]⟩)

lemma messages_connectWebSocket (w : World) :
    (connectWebSocket w).sess.messages = w.sess.messages := by
  unfold connectWebSocket
  cases htok : w.token with
  | none => rfl
  | some tok =>
    by_cases he : tok = "" <;> simp [he]

lemma messages_onopen (w : World) :
    (onopen w).sess.messages = w.sess.messages := by
  unfold onopen
  cases hr : w.sess.reconnectTimeoutRef <;> simp

lemma messages_cleanup (w : World) :
    (cleanup w).sess.messages = w.sess.messages := by
  unfold cleanup
  cases ha : w.sess.wsRef <;> cases hb : w.sess.reconnectTimeoutRef <;> simp

lemma nodup_reachable {tok : Option String} {w : World}
    (h : ReachableW tok GoodFetch w) :
    (w.sess.messages.map Message.id).Nodup := by
  induction h with
  | init => simp [initWorld]
  | next hr hP hs ih =>
    rename_i w e w'
    cases e with
    | mount =>
      simp only [step] at hs
      split at hs
      · cases hs
      · injection hs with hs
        subst hs
        rw [messages_connectWebSocket]
        exact ih
    | fetchOk data =>
      simp only [step] at hs
      split at hs
      · injection hs with hs
        subst hs
        exact hP data rfl
      · cases hs
    | fetchErr =>
      simp only [step] at hs
      split at hs
      · injection hs with hs
        subst hs
        exact ih
      · cases hs
    | wsOpen i =>
      simp only [step] at hs
      split at hs
      · injection hs with hs
        subst hs
        rw [messages_onopen]
        exact ih
      · cases hs
    | wsMessage i m =>
      simp only [step] at hs
      split at hs
      · injection hs with hs
        subst hs
        exact nodup_mergeMessage m ih
      · cases hs
    | wsError i =>
      simp only [step] at hs
      split at hs
      · injection hs with hs
        subst hs
        exact ih
      · cases hs
    | wsClose i =>
      simp only [step] at hs
      split at hs
      · split at hs
        · cases hs
        · injection hs with hs
          subst hs
          exact ih
      · cases hs
    | timerFire t =>
      simp only [step] at hs
      split at hs
      · split at hs
        · injection hs with hs
          subst hs
          rw [messages_connectWebSocket]
          exact ih
        · cases hs
      · cases hs
    | inputChange s =>
      simp only [step] at hs
      injection hs with hs
      subst hs
      exact ih
    | sendClick =>
      simp only [step] at hs
      injection hs with hs
      subst hs
      unfold handleSendMessage
      split
      · exact ih
      · exact ih
    | teardown =>
      simp only [step] at hs
      split at hs
      · injection hs with hs
        subst hs
        rw [messages_cleanup]
        exact ih
      · cases hs

lemma token_connectWebSocket (w : World) : (connectWebSocket w).token = w.token := by
  unfold connectWebSocket
  cases htok : w.token with
  | none => rfl
  | some tok => by_cases he : tok = "" <;> simp [he]

lemma token_onopen (w : World) : (onopen w).token = w.token := by
  unfold onopen
  cases hr : w.sess.reconnectTimeoutRef <;> simp

lemma token_cleanup (w : World) : (cleanup w).token = w.token := by
  unfold cleanup
  cases ha : w.sess.wsRef <;> cases hb : w.sess.reconnectTimeoutRef <;> simp

lemma token_step {w w' : World} {e : Event} (hs : step w e = some w') :
    w'.token = w.token := by
  cases e with
  | mount =>
    simp only [step] at hs
    split at hs
    · cases hs
    · injection hs with hs
      subst hs
      rw [token_connectWebSocket]
  | fetchOk data =>
    simp only [step] at hs
    split at hs
    · injection hs with hs; subst hs; rfl
    · cases hs
  | fetchErr =>
    simp only [step] at hs
    split at hs
    · injection hs with hs; subst hs; rfl
    · cases hs
  | wsOpen i =>
    simp only [step] at hs
    split at hs
    · injection hs with hs; subst hs; rw [token_onopen]
    · cases hs
  | wsMessage i m =>
    simp only [step] at hs
    split at hs
    · injection hs with hs; subst hs; rfl
    · cases hs
  | wsError i =>
    simp only [step] at hs
    split at hs
    · injection hs with hs; subst hs; rfl
    · cases hs
  | wsClose i =>
    simp only [step] at hs
    split at hs
    · split at hs
      · cases hs
      · injection hs with hs; subst hs; rfl
    · cases hs
  | timerFire t =>
    simp only [step] at hs
    split at hs
    · split at hs
      · injection hs with hs; subst hs; rw [token_connectWebSocket]
      · cases hs
    · cases hs
  | inputChange s =>
    simp only [step] at hs
    injection hs with hs; subst hs; rfl
  | sendClick =>
    simp only [step] at hs
    injection hs with hs
    subst hs
    unfold handleSendMessage
    split <;> rfl
  | teardown =>
    simp only [step] at hs
    split at hs
    · injection hs with hs; subst hs; rw [token_cleanup]
    · cases hs

lemma token_reachable {tok : Option String} {P : Event → Prop} {w : World}
    (h : ReachableW tok P w) : w.token = tok := by
  induction h with
  | init => rfl
  | next _ _ hs ih => rw [token_step hs]; exact ih

/-- Invariant maintained when the stored token is missing or empty: no
socket is ever constructed, no timer is ever scheduled, and once the
effect body has run the status is `error`. -/
def InvBad (w : World) : Prop :=
  w.socks = [] ∧ w.timers = [] ∧
  (w.mounted = true → w.sess.connectionStatus = ConnectionStatus.error)

lemma connectWebSocket_bad {w : World} (h : w.token = none ∨ w.token = some "") :
    connectWebSocket w
      = { w with sess := { w.sess with connectionStatus := ConnectionStatus.error } } := by
  rcases h with h | h
  · exact connectWebSocket_token_none h
  · exact connectWebSocket_token_empty h

lemma invBad_connectWebSocket {w : World} (h : w.token = none ∨ w.token = some "")
    (hw1 : w.socks = []) (hw2 : w.timers = []) :
    InvBad (connectWebSocket w) := by
  rw [connectWebSocket_bad h]
  exact ⟨hw1, hw2, fun _ => rfl⟩

lemma invBad_step {w w' : World} {e : Event}
    (htok : w.token = none ∨ w.token = some "")
    (hw : InvBad w) (hs : step w e = some w') : InvBad w' := by
  obtain ⟨hsocks, htimers, herr⟩ := hw
  cases e with
  | mount =>
    simp only [step] at hs
    split at hs
    · cases hs
    · injection hs with hs
      subst hs
      exact invBad_connectWebSocket htok hsocks htimers
  | fetchOk data =>
    simp only [step] at hs
    split at hs
    · injection hs with hs; subst hs; exact ⟨hsocks, htimers, herr⟩
    · cases hs
  | fetchErr =>
    simp only [step] at hs
    split at hs
    · injection hs with hs; subst hs; exact ⟨hsocks, htimers, herr⟩
    · cases hs
  | wsOpen i =>
    simp only [step] at hs
    split at hs
    · rename_i hg
      rw [hsocks] at hg
      simp at hg
    · cases hs
  | wsMessage i m =>
    simp only [step] at hs
    split at hs
    · rename_i hg
      rw [hsocks] at hg
      simp at hg
    · cases hs
  | wsError i =>
    simp only [step] at hs
    split at hs
    · rename_i hg
      rw [hsocks] at hg
      simp at hg
    · cases hs
  | wsClose i =>
    simp only [step] at hs
    split at hs
    · rename_i p hg
      rw [hsocks] at hg
      simp at hg
    · cases hs
  | timerFire t =>
    simp only [step] at hs
    split at hs
    · rename_i tm hg
      rw [htimers] at hg
      simp at hg
    · cases hs
  | inputChange s =>
    simp only [step] at hs
    injection hs with hs; subst hs; exact ⟨hsocks, htimers, herr⟩
  | sendClick =>
    simp only [step] at hs
    injection hs with hs
    subst hs
    unfold handleSendMessage
    split
    · exact ⟨hsocks, htimers, herr⟩
    · exact ⟨hsocks, htimers, herr⟩
  | teardown =>
    simp only [step] at hs
    split at hs
    · injection hs with hs
      subst hs
      unfold cleanup
      refine ⟨?_, ?_, herr⟩
      · cases ha : w.sess.wsRef <;> simp [hsocks, requestClose]
      · cases hb : w.sess.reconnectTimeoutRef <;> simp [htimers, clearTimeout]
    · cases hs

lemma invBad_reachable {tok : Option String} {P : Event → Prop} {w : World}
    (htok : tok = none ∨ tok = some "") (h : ReachableW tok P w) : InvBad w := by
  induction h with
  | init => exact ⟨rfl, rfl, fun hm => by cases hm⟩
  | next hr _ hs ih =>
    refine invBad_step ?_ ih hs
    rw [token_reachable hr]
    exact htok

lemma onopen_status (w : World) :
    (onopen w).sess.connectionStatus = ConnectionStatus.connected := by
  unfold onopen
  cases hr : w.sess.reconnectTimeoutRef <;> simp

lemma onopen_ref (w : World) :
    (onopen w).sess.reconnectTimeoutRef = none := by
  unfold onopen
  cases hr : w.sess.reconnectTimeoutRef <;> simp

lemma connectWebSocket_good_ref {w : World} {tok : String} {j : Nat}
    (h : w.token = some tok) (hne : tok ≠ "") (href : w.sess.wsRef = some j) :
    connectWebSocket w
      = { w with
          socks := requestClose w.socks j ++ [SockPhase.conn]
          sess := { w.sess with
            connectionStatus := ConnectionStatus.connecting
            wsRef := some (requestClose w.socks j).length }
          attemptsAfterTeardown :=
            w.attemptsAfterTeardown + (if w.tornDown then 1 else 0) } := by
  unfold connectWebSocket
  rw [h, href]
  simp [hne]

/-- Sample chat participant used in concrete executions. -/
def sampleUser : MsgUser := { name := "alice", profile_picture := none }

/-- Sample message with identifier 1, as if returned by the history fetch. -/
def msg1 : Message :=
  { id := 1, content := "hello", user_id := 7
    created_at := "2024-01-01T10:00:00Z", user := sampleUser }

/-- Sample message with identifier 2, as if pushed over the live feed. -/
def msg2 : Message :=
  { id := 2, content := "hi there", user_id := 8
    created_at := "2024-01-01T10:01:00Z", user := sampleUser }

/-- Stored version of the message with identifier 5. -/
def msg5a : Message :=
  { id := 5, content := "first version", user_id := 7
    created_at := "2024-01-01T10:02:00Z", user := sampleUser }

/-- Conflicting inbound message that reuses identifier 5 with different
content, author and timestamp. -/
def msg5b : Message :=
  { id := 5, content := "second version", user_id := 9
    created_at := "2024-01-01T10:03:00Z", user := sampleUser }

end GroupChat

namespace GroupChat

/-- C7: a send whose body is empty after trimming, or issued while the
connection state is not exactly `connected`, or while no live connection
handle exists, is a silent no-op: `handleSendMessage` returns the world
unchanged, so no outbound frame is produced and no observable session
state changes (and, being a total function, it raises no exception). -/
theorem c7_send_gating_noop (w : World)
    (h : jsTrim w.sess.newMessage = "" ∨ w.sess.wsRef = none ∨
      w.sess.connectionStatus ≠ ConnectionStatus.connected) :
    handleSendMessage w = w := by
  unfold handleSendMessage
  rw [if_pos h]

/-- Witness for C7 at a concrete world: the freshly constructed session has
an empty input, a null handle and status `connecting`, and a send there
changes nothing. -/
theorem c7_send_gating_noop_witness :
    handleSendMessage (initWorld (some "tok")) = initWorld (some "tok") :=
  c7_send_gating_noop (initWorld (some "tok")) (Or.inl (by decide))

/-- C8: when the input is non-empty after trimming, a live handle is
stored and the status is exactly `connected`, `handleSendMessage` appends
exactly one outbound frame whose `content` is the input text (the
serialization of `{content: text}`), clears the input, and leaves the
message list (and everything else) unchanged: the sent message is not
appended to the history by the send path. -/
theorem c8_send_serializes_one_frame (w : World)
    (h1 : ¬ jsTrim w.sess.newMessage = "")
    (h2 : ¬ w.sess.wsRef = none)
    (h3 : w.sess.connectionStatus = ConnectionStatus.connected) :
    handleSendMessage w
      = { w with
          frames := w.frames ++ [{ content := w.sess.newMessage }]
          sess := { w.sess with newMessage := "" } } ∧
    (handleSendMessage w).sess.messages = w.sess.messages ∧
    (handleSendMessage w).frames = w.frames ++ [{ content := w.sess.newMessage }] := by
  have hcond : ¬ (jsTrim w.sess.newMessage = "" ∨ w.sess.wsRef = none ∨
      w.sess.connectionStatus ≠ ConnectionStatus.connected) := by
    intro hc
    rcases hc with hc | hc | hc
    · exact h1 hc
    · exact h2 hc
    · exact hc h3
  unfold handleSendMessage
  rw [if_neg hcond]
  exact ⟨rfl, rfl, rfl⟩

/-- A connected session with the text "hi" typed into the input, used to
exercise the send path on concrete data. -/
def sendReadyWorld : World :=
  { initWorld (some "tok") with
    sess := { (initWorld (some "tok")).sess with
      newMessage := "hi"
      wsRef := some 0
      connectionStatus := ConnectionStatus.connected } }

/-- Witness for C8 at a concrete world: a connected session with typed
text "hi" sends exactly one frame carrying that text while the message
list stays what it was. -/
theorem c8_send_serializes_one_frame_witness :
    handleSendMessage sendReadyWorld
      = { sendReadyWorld with
          frames := sendReadyWorld.frames ++ [{ content := sendReadyWorld.sess.newMessage }]
          sess := { sendReadyWorld.sess with newMessage := "" } } ∧
    (handleSendMessage sendReadyWorld).sess.messages = sendReadyWorld.sess.messages ∧
    (handleSendMessage sendReadyWorld).frames
      = sendReadyWorld.frames ++ [{ content := sendReadyWorld.sess.newMessage }] :=
  c8_send_serializes_one_frame sendReadyWorld (by decide) (by decide) (by decide)

/-- C10: duplicate suppression keys only on the message identifier: an
inbound message whose `id` matches any stored message is discarded whole,
whatever its other fields, so the first-received version of an identifier
is kept and never updated. -/
theorem c10_dedup_keys_on_id_only (prev : List Message) (m dup : Message)
    (hmem : dup ∈ prev) (hid : dup.id = m.id) :
    mergeMessage prev m = prev := by
  unfold mergeMessage
  rw [if_pos (List.any_eq_true.mpr ⟨dup, hmem, by simp [hid]⟩)]

/-- Witness for C10 at concrete data: an inbound message reusing the
stored identifier 5 with different content, author and timestamp is
discarded in its entirety. -/
theorem c10_dedup_keys_on_id_only_witness :
    msg5a.content ≠ msg5b.content ∧ msg5a.user_id ≠ msg5b.user_id ∧
    msg5a.created_at ≠ msg5b.created_at ∧
    mergeMessage [msg5a] msg5b = [msg5a] :=
  ⟨by decide, by decide, by decide,
    c10_dedup_keys_on_id_only [msg5a] msg5b msg5a (by decide) (by decide)⟩

end GroupChat

namespace GroupChat

/-- Events of the late-fetch scenario: the session mounts, the socket
opens, a live message arrives, and only then does the history fetch
resolve (with an empty history). -/
def lateFetchTrace : List Event :=
  [Event.mount, Event.wsOpen 0, Event.wsMessage 0 msg2]

/-- C2 counterexample: a history fetch that resolves after a live message
has already been appended does not preserve that message — the fetch
handler replaces the message list wholesale (`setMessages(data)`), so the
previously-appended live message with identifier 2 is removed when the
fetch resolves with an empty history.  Every step of the trace is enabled
(`runsTo` returns `some`). -/
theorem c2_counterexample :
    (runsTo (initWorld (some "tok")) lateFetchTrace).map
        (fun w => w.sess.messages) = some [msg2] ∧
    (runsTo (initWorld (some "tok")) (lateFetchTrace ++ [Event.fetchOk []])).map
        (fun w => w.sess.messages) = some [] := by
  constructor <;> rfl

/-- C2 amended: live messages are appended at the end of the list in the
order received — each inbound live message either leaves the list
unchanged (duplicate identifier) or appends at the end, never reordering
what is already there — but a history-fetch success that resolves after
live messages were appended replaces the list wholesale with the fetched
data, removing those previously-appended live messages; only live
messages arriving after the fetch has resolved are unaffected by it
(the fetch resolves at most once: once `fetchInFlight` is cleared no
further fetch event is enabled). -/
theorem c2_amended_append_order_vs_replace (w : World) (data : List Message)
    (m : Message) (hf : w.fetchInFlight = true) :
    (mergeMessage w.sess.messages m = w.sess.messages ∨
      mergeMessage w.sess.messages m = w.sess.messages ++ [m]) ∧
    step w (Event.fetchOk data)
      = some { w with fetchInFlight := false, sess := { w.sess with messages := data } } ∧
    (∀ w' data', step w (Event.fetchOk data) = some w' →
      step w' (Event.fetchOk data') = none) := by
  refine ⟨?_, ?_, ?_⟩
  · unfold mergeMessage
    split
    · exact Or.inl rfl
    · exact Or.inr rfl
  · simp only [step]
    rw [if_pos hf]
  · intro w' data' hs
    simp only [step] at hs
    rw [if_pos hf] at hs
    injection hs with hs
    subst hs
    simp [step]

/-- The world reached by the late-fetch trace: the socket is open, the
live message with identifier 2 has been appended, and the history fetch
is still in flight. -/
def lateFetchWorld : World :=
  (runsTo (initWorld (some "tok")) lateFetchTrace).getD (initWorld (some "tok"))

/-- Witness for C2's amended statement at a concrete world: the world
reached by the late-fetch trace still has its fetch in flight, a live
message merges by appending or not at all, and the fetch replaces the
list wholesale. -/
theorem c2_amended_append_order_vs_replace_witness :
    (mergeMessage lateFetchWorld.sess.messages msg1 = lateFetchWorld.sess.messages ∨
      mergeMessage lateFetchWorld.sess.messages msg1
        = lateFetchWorld.sess.messages ++ [msg1]) ∧
    step lateFetchWorld (Event.fetchOk [])
      = some { lateFetchWorld with
          fetchInFlight := false
          sess := { lateFetchWorld.sess with messages := [] } } ∧
    (∀ w' data', step lateFetchWorld (Event.fetchOk []) = some w' →
      step w' (Event.fetchOk data') = none) :=
  c2_amended_append_order_vs_replace lateFetchWorld [] msg1 (by decide)

/-- Events of the teardown race: the session mounts, the socket opens, the
component unmounts (the cleanup closes the socket; no timer is pending so
none is cleared), the closed socket's close event is then delivered — its
handler schedules a reconnect timer — and three seconds later that timer
fires and re-invokes `connectWebSocket`. -/
def teardownRaceTrace : List Event :=
  [Event.mount, Event.wsOpen 0, Event.teardown, Event.wsClose 0, Event.timerFire 0]

/-- C4: the code violates the claim.  After teardown the socket's close
event still runs the `onclose` handler, which schedules a fresh reconnect
timer that nothing ever cancels; when it fires, `connectWebSocket` runs on
the torn-down session and constructs a second socket
(`attemptsAfterTeardown = 1`, two sockets in total).  The middle conjunct
shows the intermediate state: after teardown plus the in-flight close
event, a reconnect timer is pending.  Every step is enabled. -/
theorem c4_teardown_reconnect_bug :
    (runsTo (initWorld (some "tok"))
        [Event.mount, Event.wsOpen 0, Event.teardown]).map
        (fun w => (w.tornDown, pendingCount w.timers, w.socks.length)) = some (true, 0, 1) ∧
    (runsTo (initWorld (some "tok"))
        [Event.mount, Event.wsOpen 0, Event.teardown, Event.wsClose 0]).map
        (fun w => (w.tornDown, pendingCount w.timers)) = some (true, 1) ∧
    (runsTo (initWorld (some "tok")) teardownRaceTrace).map
        (fun w => (w.tornDown, w.attemptsAfterTeardown, w.socks.length)) = some (true, 1, 2) := by
  refine ⟨rfl, rfl, rfl⟩

end GroupChat

namespace GroupChat

/-- C1: on each inbound live message, if a message with the same
identifier already exists in the list the list is left unchanged,
otherwise the message is appended at the end; consequently, over any
interleaving of history-fetch results whose batches carry pairwise
distinct identifiers (`GoodFetch`) and live messages, every reachable
message list contains each distinct identifier exactly once. -/
theorem c1_dedup_invariant (tok : Option String) (w : World)
    (h : ReachableW tok GoodFetch w) :
    (∀ prev m, (∃ p ∈ prev, p.id = m.id) → mergeMessage prev m = prev) ∧
    (∀ prev m, (∀ p ∈ prev, p.id ≠ m.id) → mergeMessage prev m = prev ++ [m]) ∧
    (w.sess.messages.map Message.id).Nodup := by
  refine ⟨?_, ?_, nodup_reachable h⟩
  · rintro prev m ⟨p, hp, hid⟩
    unfold mergeMessage
    rw [if_pos (List.any_eq_true.mpr ⟨p, hp, by simp [hid]⟩)]
  · intro prev m hall
    unfold mergeMessage
    rw [if_neg]
    intro hany
    obtain ⟨p, hp, hid⟩ := List.any_eq_true.mp hany
    exact hall p hp (by simpa using hid)

/-- Events of the happy-path scenario: mount, history resolves with one
message, the socket opens, one live message arrives. -/
def dedupTrace : List Event :=
  [Event.mount, Event.fetchOk [msg1], Event.wsOpen 0, Event.wsMessage 0 msg2]

/-- The world reached by the happy-path trace: the list is `[msg1, msg2]`. -/
def dedupWorld : World :=
  (runsTo (initWorld (some "tok")) dedupTrace).getD (initWorld (some "tok"))

lemma goodFetch_dedupTrace : ∀ e ∈ dedupTrace, GoodFetch e := by
  intro e he data hde
  subst hde
  simp only [dedupTrace, List.mem_cons, List.not_mem_nil, or_false] at he
  rcases he with he | he | he | he
  · cases he
  · cases he
    decide
  · cases he
  · cases he

/-- Witness for C1 at the concrete happy-path world. -/
theorem c1_dedup_invariant_witness :
    (∀ prev m, (∃ p ∈ prev, p.id = m.id) → mergeMessage prev m = prev) ∧
    (∀ prev m, (∀ p ∈ prev, p.id ≠ m.id) → mergeMessage prev m = prev ++ [m]) ∧
    (dedupWorld.sess.messages.map Message.id).Nodup :=
  c1_dedup_invariant (some "tok") dedupWorld
    (reachableW_of_runsTo ReachableW.init goodFetch_dedupTrace (by decide))

/-- Reachability of the end of a concrete, fully enabled run, with the
trivially true event predicate. -/
lemma reachable_runsTo_true {tok : Option String} (es : List Event) {w' : World}
    (hr : runsTo (initWorld tok) es = some w') : ReachableW tok (fun _ => True) w' :=
  reachableW_of_runsTo ReachableW.init (fun _ _ => trivial) hr

/-- C3: in every reachable world at most one reconnect timer is pending,
and every timer ever scheduled has the fixed 3000 ms delay; whenever a
close event of the live connection is delivered, the session transitions
to `disconnected`, clears the connection handle, stores the handle of a
freshly scheduled reconnect timer (replacing the previous handle), and
exactly one reconnect timer is pending afterwards. -/
theorem c3_close_single_reconnect_timer (tok : Option String) (P : Event → Prop)
    (w : World) (h : ReachableW tok P w) :
    pendingCount w.timers ≤ 1 ∧
    (∀ t ∈ w.timers, t.delayMs = 3000) ∧
    (∀ i w', step w (Event.wsClose i) = some w' →
      w'.sess.connectionStatus = ConnectionStatus.disconnected ∧
      w'.sess.wsRef = none ∧
      w'.sess.reconnectTimeoutRef = some w.timers.length ∧
      pendingCount w'.timers = 1) := by
  obtain ⟨h1, h2, h3, h4, h5⟩ := inv_reachable h
  refine ⟨by omega, h3, ?_⟩
  intro i w' hs
  simp only [step] at hs
  split at hs
  · rename_i p hg
    split at hs
    · cases hs
    · rename_i hp
      injection hs with hs
      subst hs
      have hset := aliveCount_set_of_get hg SockPhase.closed
      simp [hp] at hset
      refine ⟨rfl, rfl, rfl, ?_⟩
      show pendingCount (w.timers ++ [{ pending := true, delayMs := 3000 }]) = 1
      rw [pendingCount_append]
      simp
      omega
  · cases hs

/-- The world reached after mount and a successful open: one live socket,
status `connected`, no pending timer. -/
def openWorld : World :=
  (runsTo (initWorld (some "tok")) [Event.mount, Event.wsOpen 0]).getD
    (initWorld (some "tok"))

/-- Witness for C3 at the concrete connected world. -/
theorem c3_close_single_reconnect_timer_witness :
    pendingCount openWorld.timers ≤ 1 ∧
    (∀ t ∈ openWorld.timers, t.delayMs = 3000) ∧
    (∀ i w', step openWorld (Event.wsClose i) = some w' →
      w'.sess.connectionStatus = ConnectionStatus.disconnected ∧
      w'.sess.wsRef = none ∧
      w'.sess.reconnectTimeoutRef = some openWorld.timers.length ∧
      pendingCount w'.timers = 1) :=
  c3_close_single_reconnect_timer (some "tok") (fun _ => True) openWorld
    (reachable_runsTo_true [Event.mount, Event.wsOpen 0] (by decide))

/-- C5: with an absent or empty stored token, no reachable world of the
session ever holds a constructed socket or a scheduled timer, once the
effect body has run the status is `error`, and `connectWebSocket` is the
total function that only sets the status to `error` (no exception, no
connection attempt). -/
theorem c5_missing_token_silent_error (tok : Option String) (P : Event → Prop)
    (w : World) (htok : tok = none ∨ tok = some "") (h : ReachableW tok P w) :
    w.socks = [] ∧ w.timers = [] ∧
    (w.mounted = true → w.sess.connectionStatus = ConnectionStatus.error) ∧
    connectWebSocket w
      = { w with sess := { w.sess with connectionStatus := ConnectionStatus.error } } := by
  obtain ⟨h1, h2, h3⟩ := invBad_reachable htok h
  refine ⟨h1, h2, h3, connectWebSocket_bad ?_⟩
  rw [token_reachable h]
  exact htok

/-- The world reached by activating with no stored token. -/
def noTokenWorld : World :=
  (runsTo (initWorld none) [Event.mount]).getD (initWorld none)

/-- Witness for C5 at the concrete world activated without a token. -/
theorem c5_missing_token_silent_error_witness :
    noTokenWorld.socks = [] ∧ noTokenWorld.timers = [] ∧
    (noTokenWorld.mounted = true →
      noTokenWorld.sess.connectionStatus = ConnectionStatus.error) ∧
    connectWebSocket noTokenWorld
      = { noTokenWorld with
          sess := { noTokenWorld.sess with
            connectionStatus := ConnectionStatus.error } } :=
  c5_missing_token_silent_error none (fun _ => True) noTokenWorld (Or.inl rfl)
    (reachable_runsTo_true [Event.mount] (by decide))

/-- C6: the history fetch fires exactly once per activation (the request
count is 1 once mounted, 0 before, and no retry exists); while the fetch
is in flight, a success response replaces the message list wholesale with
the returned sequence, and a failure (network error or non-ok status)
changes nothing but the in-flight flag — in particular the message list —
and raises nothing (the step is total and returns `some`); once resolved,
no further fetch event is enabled. -/
theorem c6_fetch_oneshot_replace_or_swallow (tok : Option String)
    (P : Event → Prop) (w : World) (h : ReachableW tok P w) :
    w.fetchCount = (if w.mounted then 1 else 0) ∧
    (∀ data, w.fetchInFlight = true →
      step w (Event.fetchOk data)
        = some { w with
            fetchInFlight := false
            sess := { w.sess with messages := data } }) ∧
    (w.fetchInFlight = true →
      step w Event.fetchErr = some { w with fetchInFlight := false }) ∧
    (w.fetchInFlight = false →
      (∀ data, step w (Event.fetchOk data) = none) ∧ step w Event.fetchErr = none) := by
  obtain ⟨h1, h2, h3, h4, h5⟩ := inv_reachable h
  refine ⟨h4, ?_, ?_, ?_⟩
  · intro data hf
    simp only [step]
    rw [if_pos hf]
  · intro hf
    simp only [step]
    rw [if_pos hf]
  · intro hf
    constructor
    · intro data
      simp only [step]
      rw [if_neg (by simp [hf])]
    · simp only [step]
      rw [if_neg (by simp [hf])]

/-- Witness for C6 at the concrete late-fetch world (fetch in flight). -/
theorem c6_fetch_oneshot_replace_or_swallow_witness :
    lateFetchWorld.fetchCount = (if lateFetchWorld.mounted then 1 else 0) ∧
    (∀ data, lateFetchWorld.fetchInFlight = true →
      step lateFetchWorld (Event.fetchOk data)
        = some { lateFetchWorld with
            fetchInFlight := false
            sess := { lateFetchWorld.sess with messages := data } }) ∧
    (lateFetchWorld.fetchInFlight = true →
      step lateFetchWorld Event.fetchErr
        = some { lateFetchWorld with fetchInFlight := false }) ∧
    (lateFetchWorld.fetchInFlight = false →
      (∀ data, step lateFetchWorld (Event.fetchOk data) = none) ∧
      step lateFetchWorld Event.fetchErr = none) :=
  c6_fetch_oneshot_replace_or_swallow (some "tok") (fun _ => True) lateFetchWorld
    (reachable_runsTo_true lateFetchTrace (by decide))

/-- C9: in every reachable world at most one socket is live; on a
successful open the session transitions to `connected`, nulls the stored
reconnect-timer handle, and no reconnect timer remains pending; and with a
valid token `connectWebSocket` sets the status to `connecting` at once,
first requesting closure of the previous connection when one is stored,
before appending the one new socket. -/
theorem c9_open_connects_and_single_live (tok : Option String) (P : Event → Prop)
    (w : World) (h : ReachableW tok P w) :
    aliveCount w.socks ≤ 1 ∧
    (∀ i w', step w (Event.wsOpen i) = some w' →
      w'.sess.connectionStatus = ConnectionStatus.connected ∧
      w'.sess.reconnectTimeoutRef = none ∧
      pendingCount w'.timers = 0) ∧
    (∀ tok', w.token = some tok' → tok' ≠ "" →
      (connectWebSocket w).sess.connectionStatus = ConnectionStatus.connecting ∧
      (w.sess.wsRef = none →
        (connectWebSocket w).socks = w.socks ++ [SockPhase.conn]) ∧
      (∀ j, w.sess.wsRef = some j →
        (connectWebSocket w).socks = requestClose w.socks j ++ [SockPhase.conn])) := by
  obtain ⟨h1, h2, h3, h4, h5⟩ := inv_reachable h
  refine ⟨by omega, ?_, ?_⟩
  · intro i w' hs
    simp only [step] at hs
    split at hs
    · rename_i hg
      injection hs with hs
      subst hs
      have hal : 1 ≤ aliveCount w.socks := one_le_length_filter hg (by decide)
      have hle : pendingCount
            (onopen { w with socks := w.socks.set i SockPhase.opened }).timers
          ≤ pendingCount w.timers :=
        pendingCount_onopen_le _
      exact ⟨onopen_status _, onopen_ref _, by omega⟩
    · cases hs
  · intro tok' htok' hne
    refine ⟨?_, ?_, ?_⟩
    · cases hrf : w.sess.wsRef with
      | none => rw [connectWebSocket_good htok' hne hrf]
      | some j => rw [connectWebSocket_good_ref htok' hne hrf]
    · intro hrf
      rw [connectWebSocket_good htok' hne hrf]
    · intro j hrf
      rw [connectWebSocket_good_ref htok' hne hrf]

/-- The world reached right after mount with a valid token: one
constructed socket, status `connecting`. -/
def mountedWorld : World :=
  (runsTo (initWorld (some "tok")) [Event.mount]).getD (initWorld (some "tok"))

/-- Witness for C9 at the concrete just-mounted world. -/
theorem c9_open_connects_and_single_live_witness :
    aliveCount mountedWorld.socks ≤ 1 ∧
    (∀ i w', step mountedWorld (Event.wsOpen i) = some w' →
      w'.sess.connectionStatus = ConnectionStatus.connected ∧
      w'.sess.reconnectTimeoutRef = none ∧
      pendingCount w'.timers = 0) ∧
    (∀ tok', mountedWorld.token = some tok' → tok' ≠ "" →
      (connectWebSocket mountedWorld).sess.connectionStatus
        = ConnectionStatus.connecting ∧
      (mountedWorld.sess.wsRef = none →
        (connectWebSocket mountedWorld).socks
          = mountedWorld.socks ++ [SockPhase.conn]) ∧
      (∀ j, mountedWorld.sess.wsRef = some j →
        (connectWebSocket mountedWorld).socks
          = requestClose mountedWorld.socks j ++ [SockPhase.conn])) :=
  c9_open_connects_and_single_live (some "tok") (fun _ => True) mountedWorld
    (reachable_runsTo_true [Event.mount] (by decide))

end GroupChat
